import Mathlib

/-
  Verification of the moonlight-web-stream hybrid streaming gateway.

  Shallow embedding of:
  - the hybrid session manager
    (src/moonlight-web/web-server/src/app/session.rs),
  - the WebTransport audio pipeline
    (src/moonlight-web/streamer/src/transport/webtransport/audio.rs and
     the setup_audio path in .../webtransport/mod.rs),
  - the WebTransport video datagram sender
    (src/moonlight-web/streamer/src/transport/webtransport/video.rs),
  - the WebRTC termination timer
    (src/moonlight-web/streamer/src/transport/webrtc/mod.rs).

  Rust Instants are modelled as natural numbers (milliseconds for the WebRTC
  timer, seconds for the session manager), HashMaps as association lists with
  replace-on-insert semantics, tokio channel endpoints as numeric tags, and
  the nondeterministic inputs of the code (uuid generation, Instant::now(),
  datagram send outcomes, the external NAL payloader) as explicit parameters.
-/

namespace SessionM

/-! ## Session manager (web-server/src/app/session.rs) -/
abbrev SessionId := String

abbrev SessionToken := String

/-- `TOKEN_EXPIRATION_SECS` from session.rs. -/
def TOKEN_EXPIRATION_SECS : Nat := 30

/-- `CLEANUP_INTERVAL_SECS` from session.rs. -/
def CLEANUP_INTERVAL_SECS : Nat := 10

/-- `HybridSession` from session.rs.  The notify senders and the two
channel endpoints are modelled as numeric tags. -/
structure HybridSession where
  id : SessionId
  token : Option SessionToken
  token_expires_at : Nat
  input_connected : Bool
  primary_notify : Option Nat
  input_notify : Option Nat
  input_to_streamer_tx : Option Nat
  streamer_to_input_tx : Option Nat
  created_at : Nat
deriving Repr, DecidableEq

/-- `SessionError` from session.rs. -/
inductive SessionError where
  | TokenExpired
  | TokenInvalid
  | SessionNotFound
  | InputAlreadyConnected
  | PrimaryDisconnected
  | SessionShuttingDown
deriving Repr, DecidableEq

/-- Lookup in a string-keyed map (HashMap::get). -/
def mapFind (k : String) (l : List (String × α)) : Option α :=
  (l.find? (fun p => p.1 == k)).map (·.2)

/-- Removal from a string-keyed map (HashMap::remove). -/
def mapRemove (k : String) (l : List (String × α)) : List (String × α) :=
  l.filter (fun p => p.1 != k)

/-- Insertion into a string-keyed map (HashMap::insert, replacing). -/
def mapInsert (k : String) (v : α) (l : List (String × α)) : List (String × α) :=
  (k, v) :: mapRemove k l

/-- `SessionManager`: the session table and the token → session index. -/
structure SessionManager where
  sessions : List (SessionId × HybridSession)
  token_index : List (SessionToken × SessionId)
deriving Repr, DecidableEq

def emptyManager : SessionManager := { sessions := [], token_index := [] }

/-- `SessionManager::register_session`.  The generated uuid session id and
the fresh input→streamer channel are passed in as parameters. -/
def register_session (sm : SessionManager) (token : SessionToken)
    (session_id : SessionId) (now : Nat) (input_to_streamer_chan : Nat) :
    SessionManager × SessionId × SessionToken × Nat :=
  let expires_at := now + TOKEN_EXPIRATION_SECS
  let session : HybridSession :=
    { id := session_id
      token := some token
      token_expires_at := expires_at
      input_connected := false
      primary_notify := none
      input_notify := none
      input_to_streamer_tx := some input_to_streamer_chan
      streamer_to_input_tx := none
      created_at := now }
  let sm := { sm with sessions := mapInsert session_id session sm.sessions }
  let sm := { sm with token_index := mapInsert token session_id sm.token_index }
  (sm, session_id, token, input_to_streamer_chan)

/-- `SessionManager::claim_session`.  `now` is the `Instant::now()` of the
expiry check; `streamer_to_input_chan` is the fresh channel created for
streamer → input messages. -/
def claim_session (sm : SessionManager) (token : String) (now : Nat)
    (streamer_to_input_chan : Nat) :
    SessionManager × Except SessionError (SessionId × Nat × Nat) :=
  match mapFind token sm.token_index with
  | none => (sm, .error .SessionNotFound)
  | some session_id =>
    match mapFind session_id sm.sessions with
    | none =>
      -- clean up orphaned token
      ({ sm with token_index := mapRemove token sm.token_index },
        .error .SessionNotFound)
    | some session =>
      if now > session.token_expires_at then
        (sm, .error .TokenExpired)
      else if session.input_connected then
        (sm, .error .InputAlreadyConnected)
      else
        match session.input_to_streamer_tx with
        | none => (sm, .error .SessionNotFound)
        | some input_to_streamer_tx =>
          let session :=
            { session with
                streamer_to_input_tx := some streamer_to_input_chan
                token := none
                input_connected := true }
          let sm := { sm with sessions := mapInsert session_id session sm.sessions }
          let sm := { sm with token_index := mapRemove token sm.token_index }
          (sm, .ok (session_id, input_to_streamer_tx, streamer_to_input_chan))

/-- `SessionManager::primary_disconnected`. -/
def primary_disconnected (sm : SessionManager) (session_id : String) :
    SessionManager :=
  match mapFind session_id sm.sessions with
  | none => sm
  | some session =>
    let sm := { sm with sessions := mapRemove session_id sm.sessions }
    match session.token with
    | some token => { sm with token_index := mapRemove token sm.token_index }
    | none => sm

/-- `SessionManager::input_disconnected`.  The fresh uuid reconnection
token and the fresh input→streamer channel are parameters. -/
def input_disconnected (sm : SessionManager) (session_id : String)
    (new_token : SessionToken) (now : Nat) (input_to_streamer_chan : Nat) :
    SessionManager × Option SessionToken :=
  match mapFind session_id sm.sessions with
  | none => (sm, none)
  | some session =>
    let session :=
      { session with
          input_connected := false
          input_notify := none
          streamer_to_input_tx := none
          token := some new_token
          token_expires_at := now + TOKEN_EXPIRATION_SECS
          input_to_streamer_tx := some input_to_streamer_chan }
    let sm := { sm with sessions := mapInsert session_id session sm.sessions }
    let sm := { sm with token_index := mapInsert new_token session_id sm.token_index }
    (sm, some new_token)

/-- The expiry test of `do_cleanup` / `cleanup_expired`: token unclaimed,
expiry strictly passed, input not connected. -/
def sessionExpired (now : Nat) (s : HybridSession) : Bool :=
  s.token.isSome && decide (now > s.token_expires_at) && !s.input_connected

/-- `SessionManager::cleanup_expired` (and the state effect of
`do_cleanup`): collect the expired session ids and their tokens, then
remove the ids from the session table and the tokens from the index. -/
def cleanup_expired (sm : SessionManager) (now : Nat) : SessionManager :=
  let expired_sessions := (sm.sessions.filter (fun p => sessionExpired now p.2)).map (·.1)
  let expired_tokens :=
    sm.sessions.filterMap (fun p => if sessionExpired now p.2 then p.2.token else none)
  { sessions := expired_sessions.foldl (fun acc i => mapRemove i acc) sm.sessions
    token_index := expired_tokens.foldl (fun acc t => mapRemove t acc) sm.token_index }

/-- One state-changing operation on the manager, with its nondeterministic
inputs (uuids, clock readings, fresh channels) made explicit. -/
inductive SessionOp where
  | register (token : SessionToken) (session_id : SessionId) (now : Nat) (chan : Nat)
  | claim (token : String) (now : Nat) (chan : Nat)
  | inputDisconnected (session_id : String) (new_token : SessionToken) (now : Nat) (chan : Nat)
  | primaryDisconnected (session_id : String)
  | cleanup (now : Nat)
deriving Repr

def execOp (sm : SessionManager) : SessionOp → SessionManager
  | .register t sid now c => (register_session sm t sid now c).1
  | .claim t now c => (claim_session sm t now c).1
  | .inputDisconnected sid nt now c => (input_disconnected sm sid nt now c).1
  | .primaryDisconnected sid => primary_disconnected sm sid
  | .cleanup now => cleanup_expired sm now

def execOps (sm : SessionManager) (ops : List SessionOp) : SessionManager :=
  ops.foldl execOp sm

/-- Invariant (b) of the spec: input-connected sessions hold no token. -/
def TokenInv (sm : SessionManager) : Prop :=
  ∀ p ∈ sm.sessions, p.2.input_connected = true → p.2.token = none

def sessionC9 : HybridSession :=
  { id := "s", token := none, token_expires_at := 30, input_connected := true
    primary_notify := none, input_notify := none, input_to_streamer_tx := some 7
    streamer_to_input_tx := some 9, created_at := 0 }

def managerC9 : SessionManager :=
  { sessions := [("s", sessionC9)], token_index := [] }

def sessionC7 : HybridSession :=
  { id := "a", token := some "ta", token_expires_at := 30, input_connected := false
    primary_notify := none, input_notify := none, input_to_streamer_tx := some 1
    streamer_to_input_tx := none, created_at := 0 }

def sessionC7' : HybridSession :=
  { id := "b", token := none, token_expires_at := 30, input_connected := true
    primary_notify := none, input_notify := none, input_to_streamer_tx := some 2
    streamer_to_input_tx := some 3, created_at := 0 }

def managerC7 : SessionManager :=
  { sessions := [("a", sessionC7), ("b", sessionC7')]
    token_index := [("ta", "a")] }

end SessionM

namespace WTAudio

/-! ## WebTransport audio pipeline
(streamer/src/transport/webtransport/audio.rs and the `setup_audio` path
of .../webtransport/mod.rs).

The stream writer is modelled as the list of samples written to it so far
(`some written` when attached, `none` when absent); stream writes are
assumed to succeed.  The Opus/audio config fields, which only produce
warnings, are omitted. -/
/-- `WebTransportAudio`: writer slot, bounded sample FIFO (a Rust `Vec`
pushed at the back), and its configured capacity. -/
structure WebTransportAudio where
  stream_writer : Option (List (List Nat))
  channel_queue_size : Nat
  sample_buffer : List (List Nat)
deriving Repr, DecidableEq

/-- `WebTransportAudio::new`. -/
def new (channel_queue_size : Nat) : WebTransportAudio :=
  { stream_writer := none, channel_queue_size := channel_queue_size, sample_buffer := [] }

/-- `WebTransportAudio::set_stream_writer`: installs a fresh stream. -/
def set_stream_writer (a : WebTransportAudio) : WebTransportAudio :=
  { a with stream_writer := some [] }

/-- `WebTransportAudio::send_audio_sample`: write through when the writer
is attached; otherwise push onto the FIFO if it is below capacity, else
warn and drop the incoming sample. -/
def send_audio_sample (a : WebTransportAudio) (data : List Nat) : WebTransportAudio :=
  match a.stream_writer with
  | some written => { a with stream_writer := some (written ++ [data]) }
  | none =>
    if a.sample_buffer.length < a.channel_queue_size then
      { a with sample_buffer := a.sample_buffer ++ [data] }
    else
      a

/-- `WebTransportAudio::flush_buffer`: `while let Some(sample) =
buffer.pop()` writes samples popped from the BACK of the Vec, i.e. in
reverse production order, then leaves the buffer empty.  (No function in
the repository calls it.) -/
def flush_buffer (a : WebTransportAudio) : WebTransportAudio :=
  match a.stream_writer with
  | none => a
  | some written =>
    { a with stream_writer := some (written ++ a.sample_buffer.reverse)
             sample_buffer := [] }

/-- `WebTransportSender::setup_audio` (webtransport/mod.rs): when the
writer is absent and the main session connection exists, open the
unidirectional stream and install the writer; it performs no flush of the
sample buffer.  Returns the status of the inner `audio.setup` call, which
fails with -1 when the writer is still absent. -/
def setup_audio (a : WebTransportAudio) (main_session_connected : Bool) :
    WebTransportAudio × Int :=
  let a := if a.stream_writer.isNone && main_session_connected then set_stream_writer a else a
  (a, if a.stream_writer.isNone then -1 else 0)

end WTAudio

namespace WebRtcPeer

/-! ## WebRTC termination timer
(streamer/src/transport/webrtc/mod.rs, `on_peer_connection_state_change`,
`request_terminate`, `clear_terminate_request`).

Instants are milliseconds.  Only the effect of the state-change handler on
`timeout_terminate_request` is modelled, together with the condition under
which the one-shot spawned by `request_terminate` emits `Closed`. -/
/-- `TIMEOUT_DURATION` (10 s), in milliseconds. -/
def TIMEOUT_DURATION : Nat := 10000

/-- The one-shot sleeps `TIMEOUT_DURATION + 200 ms` before checking. -/
def TERMINATE_CHECK_DELAY : Nat := TIMEOUT_DURATION + 200

inductive RTCPeerConnectionState where
  | new | connecting | connected | disconnected | failed | closed | unspecified
deriving Repr, DecidableEq

/-- Effect of `on_peer_connection_state_change` on the termination slot:
Connected sends StartStream and leaves the slot untouched; Closed sends
Closed and leaves the slot untouched; Failed and Disconnected call
`request_terminate`, which records `Instant::now()` in the slot; every
other state falls to the final else branch, `clear_terminate_request`. -/
def state_change_slot (now : Nat) (state : RTCPeerConnectionState)
    (slot : Option Nat) : Option Nat :=
  match state with
  | .connected => slot
  | .closed => slot
  | .failed => some now
  | .disconnected => some now
  | _ => none

/-- Run a timed trace of connection-state transitions over the slot. -/
def runTrace (slot : Option Nat) : List (Nat × RTCPeerConnectionState) → Option Nat
  | [] => slot
  | (t, s) :: rest => runTrace (state_change_slot t s slot) rest

/-- The check the one-shot performs when it wakes at `checkTime`: emit
`Closed` iff the slot still holds a request strictly older than
`TIMEOUT_DURATION`. -/
def oneShotEmitsClosed (checkTime : Nat) (slot : Option Nat) : Bool :=
  match slot with
  | some request => decide (checkTime - request > TIMEOUT_DURATION)
  | none => false

end WebRtcPeer

namespace WTVideo

/-! ## WebTransport video datagram sender
(streamer/src/transport/webtransport/video.rs, `send_decode_unit` and
`send_samples`).

The decode unit's NAL samples (produced by the H264/H265 readers) are the
`samples` input; the external webrtc-rs payloader is a parameter
`payloader : List Nat → Option (List (List Nat))` mapping a NAL to its
payload fragments (`none` models a packetization error, which the code
logs and skips with `continue`); the outcome of the k-th
`send_datagram` attempt of a unit is `oracle k`.  Bytes are naturals
below 256. -/
/-- `RTP_OUTBOUND_MTU` of the webrtc-rs h265 payloader module. -/
def RTP_OUTBOUND_MTU : Nat := 1200

/-- `max_payload_size = RTP_OUTBOUND_MTU - 12`. -/
def maxPayloadSize : Nat := RTP_OUTBOUND_MTU - 12

/-- Big-endian bytes of a u32 (`u32::to_be_bytes`). -/
def u32be (n : Nat) : List Nat :=
  [n / 2 ^ 24 % 256, n / 2 ^ 16 % 256, n / 2 ^ 8 % 256, n % 256]

/-- Big-endian bytes of a u16 (`u16::to_be_bytes`). -/
def u16be (n : Nat) : List Nat :=
  [n / 2 ^ 8 % 256, n % 256]

/-- The datagram bytes built in `send_samples`:
`[timestamp: u32][sequence: u16][is_last: u8][payload]`. -/
def mkDatagram (timestamp seq : Nat) (last : Bool) (payload : List Nat) : List Nat :=
  u32be (timestamp % 2 ^ 32) ++ u16be (seq % 2 ^ 16) ++
    [if last then 1 else 0] ++ payload

/-- One attempted datagram: its wire bytes, the sequence value stamped
into it (`packets_sent` at emission), its is_last flag, its payload, and
whether `send_datagram` succeeded. -/
structure DatagramRec where
  bytes : List Nat
  seq : Nat
  is_last : Bool
  payload : List Nat
  ok : Bool
deriving Repr, DecidableEq

/-- Running state of `send_samples`: the `packets_sent` / `packets_failed`
counters, the shared atomic needs-IDR flag, and the log of attempted
datagrams. -/
structure SendState where
  sent : Nat
  failed : Nat
  needsIdr : Bool
  datagrams : List DatagramRec
deriving Repr, DecidableEq

/-- The inner `for (i, payload) in payloads.iter().enumerate()` loop of
`send_samples` for one sample: emit each fragment with sequence
`packets_sent`, increment `packets_sent` on success; on failure increment
`packets_failed` and, when `packets_failed > packets_sent / 2`, raise the
needs-IDR flag and return `Err` (second component `true`). -/
def sendPayloads (oracle : Nat → Bool) (timestamp : Nat) (lastSample : Bool)
    (total : Nat) : List (List Nat) → Nat → SendState → SendState × Bool
  | [], _, st => (st, false)
  | payload :: rest, i, st =>
    let last := lastSample && (i == total - 1)
    if oracle (st.sent + st.failed) then
      sendPayloads oracle timestamp lastSample total rest (i + 1)
        { st with
            sent := st.sent + 1
            datagrams := st.datagrams ++
              [{ bytes := mkDatagram timestamp st.sent last payload
                 seq := st.sent, is_last := last, payload := payload, ok := true }] }
    else
      let st := { st with
            failed := st.failed + 1
            datagrams := st.datagrams ++
              [{ bytes := mkDatagram timestamp st.sent last payload
                 seq := st.sent, is_last := last, payload := payload, ok := false }] }
      if st.failed > st.sent / 2 then
        ({ st with needsIdr := true }, true)
      else
        sendPayloads oracle timestamp lastSample total rest (i + 1) st

/-- The outer `while let Some(sample) = peekable.next()` loop of
`send_samples`: payload the sample (skipping it on packetization error)
and emit its fragments; `is_last` is set on the final fragment when
`peekable.peek()` shows no further sample. -/
def sendSamplesLoop (payloader : List Nat → Option (List (List Nat)))
    (oracle : Nat → Bool) (timestamp : Nat) :
    List (List Nat) → SendState → SendState × Bool
  | [], st => (st, false)
  | sample :: rest, st =>
    match payloader sample with
    | none => sendSamplesLoop payloader oracle timestamp rest st
    | some payloads =>
      match sendPayloads oracle timestamp rest.isEmpty payloads.length payloads 0 st with
      | (st, true) => (st, true)
      | (st, false) => sendSamplesLoop payloader oracle timestamp rest st

def initState (needsIdr0 : Bool) : SendState :=
  { sent := 0, failed := 0, needsIdr := needsIdr0, datagrams := [] }

/-- `WebTransportVideo::send_samples`: with no connection, raise the flag
and fail; otherwise run the loops; afterwards, if any sends failed and
failures outnumber successes, raise the flag and fail.  The second
component is `true` iff the Rust function returns `Err(())`. -/
def send_samples (payloader : List Nat → Option (List (List Nat)))
    (oracle : Nat → Bool) (timestamp : Nat) (samples : List (List Nat))
    (connection : Bool) (needsIdr0 : Bool) : SendState × Bool :=
  if !connection then
    ({ initState needsIdr0 with needsIdr := true }, true)
  else
    match sendSamplesLoop payloader oracle timestamp samples (initState needsIdr0) with
    | (st, true) => (st, true)
    | (st, false) =>
      if st.failed > 0 && st.failed > st.sent then
        ({ st with needsIdr := true }, true)
      else
        (st, false)

inductive DecodeResult where
  | Ok
  | NeedIdr
deriving Repr, DecidableEq

/-- `WebTransportVideo::send_decode_unit` with a codec configured: run
`send_samples`; store `true` into the needs-IDR flag on `Err`; then
`compare_exchange(true, false)` — when the flag is set, clear it and
return `NeedIdr`.  Returns the decode result, the flag value after the
call, and the final send state. -/
def send_decode_unit (payloader : List Nat → Option (List (List Nat)))
    (oracle : Nat → Bool) (timestamp : Nat) (samples : List (List Nat))
    (connection : Bool) (needsIdr0 : Bool) :
    DecodeResult × Bool × SendState :=
  let res := send_samples payloader oracle timestamp samples connection needsIdr0
  let st := if res.2 then { res.1 with needsIdr := true } else res.1
  if st.needsIdr then (.NeedIdr, false, { st with needsIdr := false })
  else (.Ok, st.needsIdr, st)

/-- Total number of payload fragments of a unit. -/
def totalFrags (payloader : List Nat → Option (List (List Nat)))
    (samples : List (List Nat)) : Nat :=
  (samples.map (fun s => ((payloader s).getD []).length)).sum

/-- Number of failed send outcomes among attempt indices
`[a, a + n)`. -/
def badCount (oracle : Nat → Bool) : Nat → Nat → Nat
  | _, 0 => 0
  | a, n + 1 => (if oracle a then 0 else 1) + badCount oracle (a + 1) n

def payloaderC5 : List Nat → Option (List (List Nat)) := fun _ => some [[1], [2], [3]]

def oracleC5 : Nat → Bool := fun k => !(k == 2)

def payloaderC5w : List Nat → Option (List (List Nat)) := fun _ => some [[1], [2]]

def oracleC5w : Nat → Bool := fun _ => false

/-- The records `send_samples` emits for one sample when every send
succeeds: fragment `j` carries sequence `seq + j` and the is_last flag
`lastSample && (i + j == total - 1)`. -/
def emitSample (ts : Nat) (lastSample : Bool) (total : Nat) :
    List (List Nat) → Nat → Nat → List DatagramRec
  | [], _, _ => []
  | p :: rest, i, seq =>
    { bytes := mkDatagram ts seq (lastSample && (i == total - 1)) p
      seq := seq, is_last := lastSample && (i == total - 1)
      payload := p, ok := true }
      :: emitSample ts lastSample total rest (i + 1) (seq + 1)

/-- The records `send_samples` emits for a whole unit when every send
succeeds. -/
def emitAll (payloader : List Nat → Option (List (List Nat))) (ts : Nat) :
    List (List Nat) → Nat → List DatagramRec
  | [], _ => []
  | s :: rest, seq =>
    match payloader s with
    | none => emitAll payloader ts rest seq
    | some ps =>
      emitSample ts rest.isEmpty ps.length ps 0 seq ++
        emitAll payloader ts rest (seq + ps.length)

/-- The sequence numbers of the successfully sent datagrams, in emission
order. -/
def okSeqs (st : SendState) : List Nat :=
  (st.datagrams.filter (fun r => r.ok)).map (fun r => r.seq)

def payloaderC8 : List Nat → Option (List (List Nat)) := fun _ => some [[9], [8]]

def oracleAllOk : Nat → Bool := fun _ => true

end WTVideo

/-! ## Theorems -/

namespace SessionM

/-! ### Map lemmas -/
theorem mem_mapRemove {α : Type} {p : String × α} {k : String}
    {l : List (String × α)} (h : p ∈ mapRemove k l) : p ∈ l :=
  (List.mem_filter.mp h).1

theorem mem_mapInsert {α : Type} {p : String × α} {k : String} {v : α}
    {l : List (String × α)} (h : p ∈ mapInsert k v l) : p = (k, v) ∨ p ∈ l := by
  simp only [mapInsert, List.mem_cons] at h
  rcases h with h | h
  · exact Or.inl h
  · exact Or.inr (mem_mapRemove h)

theorem mem_foldl_mapRemove {α : Type} {p : String × α} :
    ∀ {ids : List String} {l : List (String × α)},
      p ∈ ids.foldl (fun acc i => mapRemove i acc) l → p ∈ l := by
  intro ids
  induction ids with
  | nil => intro l h; exact h
  | cons i ids ih =>
    intro l h
    simp only [List.foldl_cons] at h
    exact mem_mapRemove (ih h)

/-! ### Preservation of the token invariant -/
theorem tokenInv_register (h : TokenInv sm) :
    TokenInv (register_session sm token sid now chan).1 := by
  unfold TokenInv register_session
  intro p hp hc
  rcases mem_mapInsert hp with rfl | hp'
  · simp at hc
  · exact h p hp' hc

theorem tokenInv_claim (h : TokenInv sm) :
    TokenInv (claim_session sm token now chan).1 := by
  unfold claim_session
  split
  · exact h
  · split
    · exact h
    · split
      · exact h
      · split
        · exact h
        · split
          · exact h
          · unfold TokenInv
            intro p hp _
            rcases mem_mapInsert hp with rfl | hp'
            · rfl
            · exact h p hp' (by assumption)

theorem tokenInv_primary_disconnected (h : TokenInv sm) :
    TokenInv (primary_disconnected sm sid) := by
  unfold primary_disconnected
  split
  · exact h
  · split
    · unfold TokenInv
      intro p hp hc
      exact h p (mem_mapRemove hp) hc
    · unfold TokenInv
      intro p hp hc
      exact h p (mem_mapRemove hp) hc

theorem tokenInv_input_disconnected (h : TokenInv sm) :
    TokenInv (input_disconnected sm sid new_token now chan).1 := by
  unfold input_disconnected
  split
  · exact h
  · unfold TokenInv
    intro p hp hc
    rcases mem_mapInsert hp with rfl | hp'
    · simp at hc
    · exact h p hp' hc

theorem tokenInv_cleanup (h : TokenInv sm) :
    TokenInv (cleanup_expired sm now) := by
  unfold TokenInv cleanup_expired
  intro p hp hc
  exact h p (mem_foldl_mapRemove hp) hc

theorem tokenInv_execOp (h : TokenInv sm) (op : SessionOp) :
    TokenInv (execOp sm op) := by
  cases op with
  | register t s n c => exact tokenInv_register h
  | claim t n c => exact tokenInv_claim h
  | inputDisconnected s nt n c => exact tokenInv_input_disconnected h
  | primaryDisconnected s => exact tokenInv_primary_disconnected h
  | cleanup n => exact tokenInv_cleanup h

theorem tokenInv_execOps {sm : SessionManager} (h : TokenInv sm)
    (ops : List SessionOp) : TokenInv (execOps sm ops) := by
  induction ops generalizing sm with
  | nil => exact h
  | cons op ops ih => exact ih (tokenInv_execOp h op)

/-- C2: after any sequence of register_session, claim_session,
input_disconnected, primary_disconnected and cleanup passes, starting from
the empty manager, every session with input_connected = true has
token = none. -/
theorem claim_C2_input_connected_token_none (ops : List SessionOp) :
    TokenInv (execOps emptyManager ops) :=
  tokenInv_execOps (by intro p hp hc; simp [emptyManager] at hp) ops

/-! ### More map lemmas -/
theorem mapFind_eq_none {α : Type} {k : String} {l : List (String × α)} :
    mapFind k l = none ↔ ∀ p ∈ l, p.1 ≠ k := by
  unfold mapFind
  simp [List.find?_eq_none]

theorem mem_mapRemove_iff {α : Type} {p : String × α} {k : String}
    {l : List (String × α)} : p ∈ mapRemove k l ↔ p ∈ l ∧ p.1 ≠ k := by
  unfold mapRemove
  simp [List.mem_filter]

theorem mapFind_mapRemove_self {α : Type} (k : String) (l : List (String × α)) :
    mapFind k (mapRemove k l) = none := by
  rw [mapFind_eq_none]
  intro p hp
  exact (mem_mapRemove_iff.mp hp).2

theorem mapFind_mapInsert_self {α : Type} (k : String) (v : α)
    (l : List (String × α)) : mapFind k (mapInsert k v l) = some v := by
  unfold mapFind mapInsert
  simp

theorem claim_session_idx_none {sm : SessionManager} {token : String}
    {now chan : Nat} (h : mapFind token sm.token_index = none) :
    (claim_session sm token now chan).2 = .error .SessionNotFound := by
  simp [claim_session, h]

/-- C1: `claim_session` returns SessionNotFound when no session is indexed
by the token (either no index entry or an orphaned one), TokenExpired
exactly when the call's instant is strictly after `token_expires_at` (a
claim at or before the expiry instant passes the check), and
InputAlreadyConnected when `input_connected` is set; otherwise it consumes
the token, marks input connected, and returns the session id, the
input→streamer sender and the fresh streamer→input receiver, after which
a second claim of the same token fails with SessionNotFound. -/
theorem claim_C1_claim_session (sm : SessionManager) (token : String)
    (now chan : Nat) :
    (mapFind token sm.token_index = none →
      (claim_session sm token now chan).2 = .error .SessionNotFound) ∧
    (∀ sid, mapFind token sm.token_index = some sid →
      mapFind sid sm.sessions = none →
      (claim_session sm token now chan).2 = .error .SessionNotFound) ∧
    (∀ sid s, mapFind token sm.token_index = some sid →
      mapFind sid sm.sessions = some s →
      now > s.token_expires_at →
      (claim_session sm token now chan).2 = .error .TokenExpired) ∧
    (∀ sid s, mapFind token sm.token_index = some sid →
      mapFind sid sm.sessions = some s →
      ¬(now > s.token_expires_at) →
      s.input_connected = true →
      (claim_session sm token now chan).2 = .error .InputAlreadyConnected) ∧
    (∀ sid s tx, mapFind token sm.token_index = some sid →
      mapFind sid sm.sessions = some s →
      ¬(now > s.token_expires_at) →
      s.input_connected = false →
      s.input_to_streamer_tx = some tx →
      (claim_session sm token now chan).2 = .ok (sid, tx, chan) ∧
      mapFind sid (claim_session sm token now chan).1.sessions =
        some { s with streamer_to_input_tx := some chan
                      token := none
                      input_connected := true } ∧
      mapFind token (claim_session sm token now chan).1.token_index = none ∧
      (∀ now2 chan2,
        (claim_session (claim_session sm token now chan).1 token now2 chan2).2 =
          .error .SessionNotFound)) := by
  refine ⟨?_, ?_, ?_, ?_, ?_⟩
  · intro h
    exact claim_session_idx_none h
  · intro sid h1 h2
    simp [claim_session, h1, h2]
  · intro sid s h1 h2 h3
    simp [claim_session, h1, h2, h3]
  · intro sid s h1 h2 h3 h4
    simp [claim_session, h1, h2, h3, h4]
  · intro sid s tx h1 h2 h3 h4 h5
    refine ⟨?_, ?_, ?_, ?_⟩
    · simp [claim_session, h1, h2, h3, h4, h5]
    · simp [claim_session, h1, h2, h3, h4, h5, mapFind_mapInsert_self]
    · simp [claim_session, h1, h2, h3, h4, h5, mapFind_mapRemove_self]
    · intro now2 chan2
      have hidx : mapFind token (claim_session sm token now chan).1.token_index = none := by
        simp [claim_session, h1, h2, h3, h4, h5, mapFind_mapRemove_self]
      exact claim_session_idx_none hidx

theorem claim_C1_witness :
    let sm0 := (register_session emptyManager "t" "s" 0 7).1
    (claim_session sm0 "t" 30 9).2 = .ok ("s", 7, 9) ∧
    (claim_session (claim_session sm0 "t" 30 9).1 "t" 30 10).2 =
      .error .SessionNotFound := by
  intro sm0
  have h := claim_C1_claim_session sm0 "t" 30 9
  have h5 := h.2.2.2.2 "s"
    { id := "s", token := some "t", token_expires_at := 30, input_connected := false
      primary_notify := none, input_notify := none, input_to_streamer_tx := some 7
      streamer_to_input_tx := none, created_at := 0 } 7
    (by decide) (by decide) (by decide) (by decide) (by decide)
  exact ⟨h5.1, h5.2.2.2 30 10⟩

/-- C10: the TokenExpired and InputAlreadyConnected error paths of
`claim_session` leave the manager state unchanged, while the
SessionNotFound path for a token whose index entry points at a missing
session removes that orphaned token from the index (and touches nothing
else). -/
theorem claim_C10_claim_session_error_state (sm : SessionManager)
    (token : String) (now chan : Nat) :
    ((claim_session sm token now chan).2 = .error .TokenExpired →
      (claim_session sm token now chan).1 = sm) ∧
    ((claim_session sm token now chan).2 = .error .InputAlreadyConnected →
      (claim_session sm token now chan).1 = sm) ∧
    (∀ sid, mapFind token sm.token_index = some sid →
      mapFind sid sm.sessions = none →
      (claim_session sm token now chan).1 =
        { sm with token_index := mapRemove token sm.token_index } ∧
      (claim_session sm token now chan).2 = .error .SessionNotFound ∧
      mapFind token (claim_session sm token now chan).1.token_index = none ∧
      (claim_session sm token now chan).1.sessions = sm.sessions) := by
  refine ⟨?_, ?_, ?_⟩
  · unfold claim_session
    split
    · simp
    · split
      · simp
      · split
        · simp
        · split
          · simp
          · split
            · simp
            · simp
  · unfold claim_session
    split
    · simp
    · split
      · simp
      · split
        · simp
        · split
          · simp
          · split
            · simp
            · simp
  · intro sid h1 h2
    refine ⟨?_, ?_, ?_, ?_⟩
    · simp [claim_session, h1, h2]
    · simp [claim_session, h1, h2]
    · simp [claim_session, h1, h2, mapFind_mapRemove_self]
    · simp [claim_session, h1, h2]

theorem claim_C10_witness :
    let sm : SessionManager :=
      { sessions := [], token_index := [("t", "ghost")] }
    (claim_session sm "t" 0 1).1 =
      { sessions := [], token_index := [] } ∧
    (claim_session sm "t" 0 1).2 = .error .SessionNotFound := by
  intro sm
  have h := (claim_C10_claim_session_error_state sm "t" 0 1).2.2 "ghost"
    (by decide) (by decide)
  refine ⟨?_, h.2.1⟩
  have h1 := h.1
  simpa [mapRemove] using h1

/-- C9: from a manager holding exactly one session (with input connected)
and an empty token index, `input_disconnected` followed by
`primary_disconnected` empties both the session table and the token
index; in particular `primary_disconnected` removes the reconnection
token minted by `input_disconnected`. -/
theorem claim_C9_disconnect_sequence (sm : SessionManager) (sid : String)
    (s : HybridSession) (nt : SessionToken) (now chan : Nat)
    (hs : sm.sessions = [(sid, s)]) (ht : sm.token_index = [])
    (hc : s.input_connected = true) :
    ((primary_disconnected (input_disconnected sm sid nt now chan).1 sid).sessions = [] ∧
     (primary_disconnected (input_disconnected sm sid nt now chan).1 sid).token_index = []) := by
  have hfind : mapFind sid sm.sessions = some s := by
    simp [mapFind, hs]
  simp [input_disconnected, primary_disconnected, hfind, hs, ht,
    mapFind, mapInsert, mapRemove]

theorem claim_C9_witness :
    (primary_disconnected (input_disconnected managerC9 "s" "t2" 40 8).1 "s").sessions = [] ∧
    (primary_disconnected (input_disconnected managerC9 "s" "t2" 40 8).1 "s").token_index = [] :=
  claim_C9_disconnect_sequence managerC9 "s" sessionC9 "t2" 40 8
    (by decide) (by decide) (by decide)

theorem nodupKeys_eq {α : Type} {l : List (String × α)}
    (hnd : (l.map Prod.fst).Nodup) {k : String} {a b : α}
    (ha : (k, a) ∈ l) (hb : (k, b) ∈ l) : a = b := by
  induction l with
  | nil => cases ha
  | cons x l ih =>
    simp only [List.map_cons, List.nodup_cons] at hnd
    rcases List.mem_cons.mp ha with h | ha' <;> rcases List.mem_cons.mp hb with h' | hb'
    · rw [← h'] at h; exact congrArg Prod.snd h
    · exfalso
      apply hnd.1
      rw [show x.1 = k from congrArg Prod.fst h.symm]
      exact List.mem_map_of_mem Prod.fst hb'
    · exfalso
      apply hnd.1
      rw [show x.1 = k from congrArg Prod.fst h'.symm]
      exact List.mem_map_of_mem Prod.fst ha'
    · exact ih hnd.2 ha' hb'

theorem mem_foldl_mapRemove_iff {α : Type} {p : String × α} :
    ∀ {ids : List String} {l : List (String × α)},
      p ∈ ids.foldl (fun acc i => mapRemove i acc) l ↔ p ∈ l ∧ p.1 ∉ ids := by
  intro ids
  induction ids with
  | nil => intro l; simp
  | cons i ids ih =>
    intro l
    simp only [List.foldl_cons]
    rw [ih, mem_mapRemove_iff]
    simp only [List.mem_cons]
    tauto

theorem mapFind_foldl_mapRemove_of_mem {α : Type} {t : String} :
    ∀ {ts : List String} {l : List (String × α)}, t ∈ ts →
      mapFind t (ts.foldl (fun acc x => mapRemove x acc) l) = none := by
  intro ts l ht
  rw [mapFind_eq_none]
  intro p hp
  have := mem_foldl_mapRemove_iff.mp hp
  intro hk
  exact this.2 (hk ▸ ht)

/-- C7: on a manager state satisfying the token invariant (and with
distinct session-table keys), a cleanup pass removes exactly the sessions
whose token is still present and whose expiry instant is strictly past;
an input-connected session is never removed; and each removed session's
token is removed from the token index. -/
theorem claim_C7_cleanup (sm : SessionManager) (now : Nat)
    (hInv : TokenInv sm) (hnd : (sm.sessions.map Prod.fst).Nodup) :
    (∀ sid s, (sid, s) ∈ sm.sessions →
      ((sid, s) ∈ (cleanup_expired sm now).sessions ↔
        ¬(s.token.isSome = true ∧ now > s.token_expires_at))) ∧
    (∀ sid s, (sid, s) ∈ sm.sessions → s.input_connected = true →
      (sid, s) ∈ (cleanup_expired sm now).sessions) ∧
    (∀ sid s t, (sid, s) ∈ sm.sessions → s.token = some t →
      now > s.token_expires_at →
      mapFind t (cleanup_expired sm now).token_index = none) := by
  have hni : ∀ s : HybridSession, s ∈ sm.sessions.map Prod.snd →
      s.token.isSome = true → s.input_connected = false := by
    intro s hs htok
    rcases List.mem_map.mp hs with ⟨p, hp, rfl⟩
    by_contra hcon
    have := hInv p hp (by revert hcon; cases p.2.input_connected <;> simp)
    rw [this] at htok
    simp at htok
  have hmain : ∀ sid s, (sid, s) ∈ sm.sessions →
      ((sid, s) ∈ (cleanup_expired sm now).sessions ↔
        ¬(s.token.isSome = true ∧ now > s.token_expires_at)) := by
    intro sid s hmem
    unfold cleanup_expired
    rw [mem_foldl_mapRemove_iff]
    constructor
    · rintro ⟨-, hnot⟩ ⟨htok, hexp⟩
      apply hnot
      apply List.mem_map_of_mem Prod.fst
      rw [List.mem_filter]
      refine ⟨hmem, ?_⟩
      have hic : s.input_connected = false :=
        hni s (List.mem_map_of_mem Prod.snd hmem) htok
      simp [sessionExpired, htok, hexp, hic]
    · intro hnot
      refine ⟨hmem, ?_⟩
      intro hin
      rcases List.mem_map.mp hin with ⟨p, hp, hfst⟩
      rw [List.mem_filter] at hp
      have : p.2 = s := by
        have : p = (p.1, p.2) := rfl
        rw [this, hfst] at hp
        exact nodupKeys_eq hnd hp.1 hmem
      apply hnot
      have hexp := hp.2
      rw [this] at hexp
      unfold sessionExpired at hexp
      simp only [Bool.and_eq_true, decide_eq_true_eq] at hexp
      exact ⟨hexp.1.1, hexp.1.2⟩
  refine ⟨hmain, ?_, ?_⟩
  · intro sid s hmem hic
    rw [hmain sid s hmem]
    rintro ⟨htok, -⟩
    have := hni s (List.mem_map_of_mem Prod.snd hmem) htok
    rw [hic] at this
    cases this
  · intro sid s t hmem htok hexp
    unfold cleanup_expired
    apply mapFind_foldl_mapRemove_of_mem
    rw [List.mem_filterMap]
    refine ⟨(sid, s), hmem, ?_⟩
    have hic : s.input_connected = false :=
      hni s (List.mem_map_of_mem Prod.snd hmem) (by simp [htok])
    simp [sessionExpired, htok, hexp, hic]

theorem claim_C7_witness :
    ("a", sessionC7) ∉ (cleanup_expired managerC7 31).sessions ∧
    ("b", sessionC7') ∈ (cleanup_expired managerC7 31).sessions ∧
    mapFind "ta" (cleanup_expired managerC7 31).token_index = none := by
  have h := claim_C7_cleanup managerC7 31
    (by
      intro p hp hc
      simp only [managerC7, List.mem_cons, List.not_mem_nil, or_false] at hp
      rcases hp with rfl | rfl
      · exact absurd hc (by decide)
      · decide)
    (by decide)
  refine ⟨?_, ?_, ?_⟩
  · rw [h.1 "a" sessionC7 (by decide)]
    decide
  · exact h.2.1 "b" sessionC7' (by decide) (by decide)
  · exact h.2.2 "a" sessionC7 "ta" (by decide) (by decide) (by decide)

end SessionM

namespace WTAudio

/-- C4: the claim says that on stream attach every buffered sample is
written out in production order before any later sample.  The code
violates this twice over: `setup_audio` installs the writer without ever
draining the FIFO (no caller of `flush_buffer` exists), so a sample sent
right after attach is written while the two buffered samples are not; and
`flush_buffer` itself, were it called, pops the Vec from the back and so
writes the buffered samples in reverse order. -/
theorem claim_C4_drain_order_bug :
    ((send_audio_sample (setup_audio ⟨none, 10, [[1], [2]]⟩ true).1 [3]).stream_writer
       = some [[3]] ∧
     (send_audio_sample (setup_audio ⟨none, 10, [[1], [2]]⟩ true).1 [3]).sample_buffer
       = [[1], [2]]) ∧
    (flush_buffer ⟨some [], 10, [[1], [2]]⟩).stream_writer = some [[2], [1]] := by
  decide

/-- C6 counterexample: with the writer absent and a full FIFO (capacity 1
holding the old sample [1]), `send_audio_sample` drops the NEW sample and
leaves the buffer unchanged, instead of dropping the oldest sample and
enqueueing the new one as the claim states. -/
theorem claim_C6_counterexample :
    send_audio_sample ⟨none, 1, [[1]]⟩ [2] = ⟨none, 1, [[1]]⟩ ∧
    ([[1]] : List (List Nat)) ≠ [[2]] := by
  decide

/-- C6 (amended): when the stream writer is absent and the FIFO already
holds channel_queue_size samples, the incoming sample is dropped (with a
warning) and the state is left unchanged; the producer is never blocked. -/
theorem claim_C6_full_buffer_drops_new (a : WebTransportAudio) (data : List Nat)
    (hw : a.stream_writer = none)
    (hfull : a.sample_buffer.length = a.channel_queue_size) :
    send_audio_sample a data = a := by
  unfold send_audio_sample
  rw [hw]
  simp [hfull]

theorem claim_C6_witness :
    send_audio_sample ⟨none, 2, [[5], [6]]⟩ [7] = ⟨none, 2, [[5], [6]]⟩ :=
  claim_C6_full_buffer_drops_new ⟨none, 2, [[5], [6]]⟩ [7] (by decide) (by decide)

end WTAudio

namespace WebRtcPeer

/-- C3: the claim says a transition to Connected or New clears the
termination slot, so a Disconnected → Connected recovery within TIMEOUT
emits no Closed.  In the code only the final else branch (reached for
New/Connecting/Unspecified) clears the slot; the Connected branch sends
StartStream and leaves the slot set.  Hence after Disconnected at t = 0 ms
and Connected at t = 5000 ms the slot still holds 0, and the one-shot
spawned at t = 0 finds it older than TIMEOUT at t = 10200 ms and emits
Closed — while a recovery that instead reaches New does clear the slot
and suppresses the emission. -/
theorem claim_C3_connected_does_not_clear :
    runTrace none [(0, .disconnected), (5000, .connected)] = some 0 ∧
    oneShotEmitsClosed (0 + TERMINATE_CHECK_DELAY)
      (runTrace none [(0, .disconnected), (5000, .connected)]) = true ∧
    runTrace none [(0, .disconnected), (5000, .new)] = none ∧
    oneShotEmitsClosed (0 + TERMINATE_CHECK_DELAY)
      (runTrace none [(0, .disconnected), (5000, .new)]) = false := by
  decide

end WebRtcPeer

namespace WTVideo

/-- C5 counterexample: a unit of three fragments whose last fragment send
fails (two successes, one failure).  The in-loop check
`packets_failed > packets_sent / 2` (1 > 1) and the end check
`packets_failed > packets_sent` (1 > 2) both fail, so the needs-IDR flag
is never raised and `send_decode_unit` returns `Ok` — refuting "if any
fragment fails to send, the flag is raised and NeedIdr is returned". -/
theorem claim_C5_counterexample :
    (send_decode_unit payloaderC5 oracleC5 0 [[0]] true false).1 = .Ok ∧
    (send_decode_unit payloaderC5 oracleC5 0 [[0]] true false).2.1 = false ∧
    ((send_decode_unit payloaderC5 oracleC5 0 [[0]] true false).2.2.datagrams.filter
        (fun r => !r.ok)).length = 1 ∧
    (send_decode_unit payloaderC5 oracleC5 0 [[0]] true false).2.2.datagrams.length = 3 := by
  decide

theorem badCount_add (oracle : Nat → Bool) :
    ∀ (m a n : Nat),
      badCount oracle a (m + n) = badCount oracle a m + badCount oracle (a + m) n := by
  intro m
  induction m with
  | zero => intro a n; simp [badCount]
  | succ m ih =>
    intro a n
    have he : m + 1 + n = (m + n) + 1 := by omega
    rw [he]
    simp only [badCount]
    rw [ih (a + 1) n]
    have he2 : a + 1 + m = a + (m + 1) := by omega
    rw [he2]
    generalize (if oracle a then 0 else 1) = c
    omega

theorem sendPayloads_no_abort (oracle : Nat → Bool) (timestamp : Nat)
    (lastSample : Bool) (total : Nat) :
    ∀ (ps : List (List Nat)) (i : Nat) (st st' : SendState),
      sendPayloads oracle timestamp lastSample total ps i st = (st', false) →
      st'.sent + st'.failed = st.sent + st.failed + ps.length ∧
      st'.failed = st.failed + badCount oracle (st.sent + st.failed) ps.length ∧
      (2 * st.failed ≤ st.sent → 2 * st'.failed ≤ st'.sent) := by
  intro ps
  induction ps with
  | nil =>
    intro i st st' h
    simp only [sendPayloads, Prod.mk.injEq, and_true] at h
    subst h
    simp [badCount]
  | cons p rest ih =>
    intro i st st' h
    simp only [sendPayloads] at h
    by_cases ho : oracle (st.sent + st.failed)
    · rw [if_pos ho] at h
      obtain ⟨h1, h2, h3⟩ := ih (i + 1) _ st' h
      dsimp only at h1 h2 h3
      refine ⟨by simp only [List.length_cons]; omega, ?_, ?_⟩
      · have ha : st.sent + 1 + st.failed = st.sent + st.failed + 1 := by omega
        rw [ha] at h2
        simp only [List.length_cons, badCount, if_pos ho]
        omega
      · intro hp
        exact h3 (by omega)
    · rw [if_neg ho] at h
      by_cases habort : st.failed + 1 > st.sent / 2
      · rw [if_pos habort] at h
        simp at h
      · rw [if_neg habort] at h
        obtain ⟨h1, h2, h3⟩ := ih (i + 1) _ st' h
        dsimp only at h1 h2 h3
        refine ⟨by simp only [List.length_cons]; omega, ?_, ?_⟩
        · have ha : st.sent + (st.failed + 1) = st.sent + st.failed + 1 := by omega
          rw [ha] at h2
          simp only [List.length_cons, badCount, if_neg ho]
          omega
        · intro hp
          exact h3 (by omega)

theorem totalFrags_cons (payloader : List Nat → Option (List (List Nat)))
    (s : List Nat) (rest : List (List Nat)) :
    totalFrags payloader (s :: rest) =
      ((payloader s).getD []).length + totalFrags payloader rest := by
  simp [totalFrags]

theorem sendSamplesLoop_no_abort (payloader : List Nat → Option (List (List Nat)))
    (oracle : Nat → Bool) (timestamp : Nat) :
    ∀ (samples : List (List Nat)) (st st' : SendState),
      sendSamplesLoop payloader oracle timestamp samples st = (st', false) →
      st'.sent + st'.failed = st.sent + st.failed + totalFrags payloader samples ∧
      st'.failed = st.failed + badCount oracle (st.sent + st.failed) (totalFrags payloader samples) ∧
      (2 * st.failed ≤ st.sent → 2 * st'.failed ≤ st'.sent) := by
  intro samples
  induction samples with
  | nil =>
    intro st st' h
    simp only [sendSamplesLoop, Prod.mk.injEq, and_true] at h
    subst h
    simp [totalFrags, badCount]
  | cons s rest ih =>
    intro st st' h
    simp only [sendSamplesLoop] at h
    cases hp : payloader s with
    | none =>
      simp only [hp] at h
      obtain ⟨h1, h2, h3⟩ := ih st st' h
      rw [totalFrags_cons, hp]
      simpa using ⟨h1, h2, h3⟩
    | some ps =>
      rcases hsp : sendPayloads oracle timestamp rest.isEmpty ps.length ps 0 st with ⟨st1, abort⟩
      simp only [hp, hsp] at h
      cases abort with
      | true => simp at h
      | false =>
        simp only [] at h
        obtain ⟨p1, p2, p3⟩ := sendPayloads_no_abort oracle timestamp rest.isEmpty ps.length ps 0 st st1 hsp
        obtain ⟨q1, q2, q3⟩ := ih st1 st' h
        rw [totalFrags_cons, hp]
        simp only [Option.getD_some]
        refine ⟨by omega, ?_, fun hinv => q3 (p3 hinv)⟩
        rw [q2, p1, p2,
          badCount_add oracle ps.length (st.sent + st.failed) (totalFrags payloader rest)]
        omega

/-- C5 (amended): a fragment send failure raises the needs-IDR flag only
when the failures so far exceed half the successes so far (or, at the end
of the unit, failures outnumber successes); when the flag is raised the
same `send_decode_unit` call returns `NeedIdr` and clears the flag.  In
particular — as proved here — whenever at least ⌈N/2⌉ of the unit's N
fragment send outcomes are failures, `send_decode_unit` returns
`NeedIdr`. -/
theorem claim_C5_majority_failure_needs_idr
    (payloader : List Nat → Option (List (List Nat))) (oracle : Nat → Bool)
    (timestamp : Nat) (samples : List (List Nat))
    (hN : 1 ≤ totalFrags payloader samples)
    (hfail : (totalFrags payloader samples + 1) / 2 ≤
      badCount oracle 0 (totalFrags payloader samples)) :
    (send_decode_unit payloader oracle timestamp samples true false).1 = .NeedIdr := by
  unfold send_decode_unit
  rcases hloop : sendSamplesLoop payloader oracle timestamp samples (initState false) with ⟨st, abort⟩
  cases abort with
  | true => simp [send_samples, hloop]
  | false =>
    obtain ⟨h1, h2, h3⟩ := sendSamplesLoop_no_abort payloader oracle timestamp samples _ _ hloop
    simp only [initState, Nat.add_zero, Nat.zero_add] at h1 h2 h3
    exfalso
    have hinv := h3 (by omega)
    omega

theorem claim_C5_witness :
    1 ≤ totalFrags payloaderC5w [[0]] ∧
    (totalFrags payloaderC5w [[0]] + 1) / 2 ≤
      badCount oracleC5w 0 (totalFrags payloaderC5w [[0]]) ∧
    (send_decode_unit payloaderC5w oracleC5w 0 [[0]] true false).1 = .NeedIdr :=
  ⟨by decide, by decide,
    claim_C5_majority_failure_needs_idr payloaderC5w oracleC5w 0 [[0]]
      (by decide) (by decide)⟩

theorem mkDatagram_length (ts seq : Nat) (last : Bool) (p : List Nat) :
    (mkDatagram ts seq last p).length = 7 + p.length := by
  simp [mkDatagram, u32be, u16be]
  omega

theorem sendPayloads_mem (oracle : Nat → Bool) (ts : Nat) (lastSample : Bool)
    (total : Nat) :
    ∀ (ps : List (List Nat)) (i : Nat) (st : SendState) (r : DatagramRec),
      r ∈ (sendPayloads oracle ts lastSample total ps i st).1.datagrams →
      r ∈ st.datagrams ∨
        (r.bytes = mkDatagram ts r.seq r.is_last r.payload ∧ r.payload ∈ ps) := by
  intro ps
  induction ps with
  | nil =>
    intro i st r hr
    simp only [sendPayloads] at hr
    exact Or.inl hr
  | cons p rest ih =>
    intro i st r hr
    simp only [sendPayloads] at hr
    by_cases ho : oracle (st.sent + st.failed)
    · rw [if_pos ho] at hr
      rcases ih (i + 1) _ r hr with hmem | ⟨hb, hp⟩
      · rcases List.mem_append.mp hmem with hmem | hmem
        · exact Or.inl hmem
        · right
          rcases List.mem_singleton.mp hmem with rfl
          exact ⟨rfl, List.mem_cons_self p rest⟩
      · exact Or.inr ⟨hb, List.mem_cons_of_mem p hp⟩
    · rw [if_neg ho] at hr
      by_cases habort : st.failed + 1 > st.sent / 2
      · rw [if_pos habort] at hr
        dsimp only at hr
        rcases List.mem_append.mp hr with hmem | hmem
        · exact Or.inl hmem
        · right
          rcases List.mem_singleton.mp hmem with rfl
          exact ⟨rfl, List.mem_cons_self p rest⟩
      · rw [if_neg habort] at hr
        rcases ih (i + 1) _ r hr with hmem | ⟨hb, hp⟩
        · rcases List.mem_append.mp hmem with hmem | hmem
          · exact Or.inl hmem
          · right
            rcases List.mem_singleton.mp hmem with rfl
            exact ⟨rfl, List.mem_cons_self p rest⟩
        · exact Or.inr ⟨hb, List.mem_cons_of_mem p hp⟩

theorem sendSamplesLoop_mem (payloader : List Nat → Option (List (List Nat)))
    (oracle : Nat → Bool) (ts : Nat) :
    ∀ (samples : List (List Nat)) (st : SendState) (r : DatagramRec),
      r ∈ (sendSamplesLoop payloader oracle ts samples st).1.datagrams →
      r ∈ st.datagrams ∨
        (r.bytes = mkDatagram ts r.seq r.is_last r.payload ∧
          ∃ s ∈ samples, ∃ ps, payloader s = some ps ∧ r.payload ∈ ps) := by
  intro samples
  induction samples with
  | nil =>
    intro st r hr
    simp only [sendSamplesLoop] at hr
    exact Or.inl hr
  | cons s rest ih =>
    intro st r hr
    simp only [sendSamplesLoop] at hr
    cases hp : payloader s with
    | none =>
      simp only [hp] at hr
      rcases ih st r hr with hmem | ⟨hb, s', hs', hfrag⟩
      · exact Or.inl hmem
      · exact Or.inr ⟨hb, s', List.mem_cons_of_mem s hs', hfrag⟩
    | some ps =>
      rcases hsp : sendPayloads oracle ts rest.isEmpty ps.length ps 0 st with ⟨st1, abort⟩
      simp only [hp, hsp] at hr
      cases abort with
      | true =>
        simp only [] at hr
        have hr1 : r ∈ (sendPayloads oracle ts rest.isEmpty ps.length ps 0 st).1.datagrams := by
          rw [hsp]; exact hr
        rcases sendPayloads_mem oracle ts rest.isEmpty ps.length ps 0 st r hr1 with hmem | ⟨hb, hfrag⟩
        · exact Or.inl hmem
        · exact Or.inr ⟨hb, s, List.mem_cons_self s rest, ps, hp, hfrag⟩
      | false =>
        simp only [] at hr
        rcases ih st1 r hr with hmem | ⟨hb, s', hs', hfrag⟩
        · have hr1 : r ∈ (sendPayloads oracle ts rest.isEmpty ps.length ps 0 st).1.datagrams := by
            rw [hsp]; exact hmem
          rcases sendPayloads_mem oracle ts rest.isEmpty ps.length ps 0 st r hr1 with hmem' | ⟨hb, hfrag⟩
          · exact Or.inl hmem'
          · exact Or.inr ⟨hb, s, List.mem_cons_self s rest, ps, hp, hfrag⟩
        · exact Or.inr ⟨hb, s', List.mem_cons_of_mem s hs', hfrag⟩

theorem sendPayloads_seq (oracle : Nat → Bool) (ts : Nat) (lastSample : Bool)
    (total : Nat) :
    ∀ (ps : List (List Nat)) (i : Nat) (st : SendState),
      okSeqs st = List.range st.sent →
      okSeqs (sendPayloads oracle ts lastSample total ps i st).1 =
        List.range (sendPayloads oracle ts lastSample total ps i st).1.sent := by
  intro ps
  induction ps with
  | nil =>
    intro i st hst
    simpa only [sendPayloads] using hst
  | cons p rest ih =>
    intro i st hst
    simp only [sendPayloads]
    by_cases ho : oracle (st.sent + st.failed)
    · rw [if_pos ho]
      apply ih
      show okSeqs { st with sent := st.sent + 1, datagrams := st.datagrams ++ _ } = _
      unfold okSeqs at hst ⊢
      simp only [List.filter_append, List.map_append, hst]
      simp [List.range_succ]
    · rw [if_neg ho]
      have hkeep : okSeqs { st with failed := st.failed + 1, datagrams := st.datagrams ++
          [{ bytes := mkDatagram ts st.sent (lastSample && (i == total - 1)) p
             seq := st.sent, is_last := lastSample && (i == total - 1)
             payload := p, ok := false }] } =
          List.range st.sent := by
        unfold okSeqs at hst ⊢
        simp only [List.filter_append, List.map_append, hst]
        simp
      by_cases habort : st.failed + 1 > st.sent / 2
      · rw [if_pos habort]
        exact hkeep
      · rw [if_neg habort]
        exact ih (i + 1) _ hkeep

theorem sendSamplesLoop_seq (payloader : List Nat → Option (List (List Nat)))
    (oracle : Nat → Bool) (ts : Nat) :
    ∀ (samples : List (List Nat)) (st : SendState),
      okSeqs st = List.range st.sent →
      okSeqs (sendSamplesLoop payloader oracle ts samples st).1 =
        List.range (sendSamplesLoop payloader oracle ts samples st).1.sent := by
  intro samples
  induction samples with
  | nil =>
    intro st hst
    simpa only [sendSamplesLoop] using hst
  | cons s rest ih =>
    intro st hst
    simp only [sendSamplesLoop]
    cases hp : payloader s with
    | none => exact ih st hst
    | some ps =>
      rcases hsp : sendPayloads oracle ts rest.isEmpty ps.length ps 0 st with ⟨st1, abort⟩
      have h1 : okSeqs st1 = List.range st1.sent := by
        have hh := sendPayloads_seq oracle ts rest.isEmpty ps.length ps 0 st hst
        rwa [hsp] at hh
      simp only [hsp]
      cases abort with
      | true => exact h1
      | false => exact ih st1 h1

theorem send_samples_fst_fields (payloader : List Nat → Option (List (List Nat)))
    (oracle : Nat → Bool) (ts : Nat) (samples : List (List Nat)) (f : Bool) :
    (send_samples payloader oracle ts samples true f).1.datagrams =
      (sendSamplesLoop payloader oracle ts samples (initState f)).1.datagrams ∧
    (send_samples payloader oracle ts samples true f).1.sent =
      (sendSamplesLoop payloader oracle ts samples (initState f)).1.sent := by
  unfold send_samples
  rcases h : sendSamplesLoop payloader oracle ts samples (initState f) with ⟨st, abort⟩
  cases abort with
  | true => simp [h]
  | false =>
    simp only [h, Bool.not_true, Bool.false_eq_true, if_false]
    split <;> simp

theorem sendPayloads_all_success (oracle : Nat → Bool) (ts : Nat)
    (lastSample : Bool) (total : Nat) (hall : ∀ k, oracle k = true) :
    ∀ (ps : List (List Nat)) (i : Nat) (st : SendState), st.failed = 0 →
      sendPayloads oracle ts lastSample total ps i st =
        ({ sent := st.sent + ps.length, failed := st.failed
           needsIdr := st.needsIdr
           datagrams := st.datagrams ++ emitSample ts lastSample total ps i st.sent },
          false) := by
  intro ps
  induction ps with
  | nil =>
    intro i st h0
    simp only [sendPayloads, emitSample, List.length_nil, Nat.add_zero, List.append_nil]
  | cons p rest ih =>
    intro i st h0
    simp only [sendPayloads]
    rw [if_pos (by rw [hall])]
    rw [ih (i + 1) _ (by simpa using h0)]
    simp only [emitSample, List.length_cons, List.append_assoc, List.singleton_append,
      Prod.mk.injEq, SendState.mk.injEq, and_true, true_and]
    omega

theorem sendSamplesLoop_all_success (payloader : List Nat → Option (List (List Nat)))
    (oracle : Nat → Bool) (ts : Nat) (hall : ∀ k, oracle k = true) :
    ∀ (samples : List (List Nat)) (st : SendState), st.failed = 0 →
      sendSamplesLoop payloader oracle ts samples st =
        ({ sent := st.sent + totalFrags payloader samples, failed := st.failed
           needsIdr := st.needsIdr
           datagrams := st.datagrams ++ emitAll payloader ts samples st.sent },
          false) := by
  intro samples
  induction samples with
  | nil =>
    intro st h0
    simp only [sendSamplesLoop, totalFrags, List.map_nil, List.sum_nil,
      Nat.add_zero, emitAll, List.append_nil]
  | cons s rest ih =>
    intro st h0
    simp only [sendSamplesLoop]
    cases hp : payloader s with
    | none =>
      rw [ih st h0]
      simp only [emitAll, hp, totalFrags_cons, Option.getD_none, List.length_nil,
        Nat.zero_add]
    | some ps =>
      dsimp only
      rw [sendPayloads_all_success oracle ts rest.isEmpty ps.length hall ps 0 st h0]
      dsimp only
      rw [ih _ (by simpa using h0)]
      simp only [emitAll, hp, totalFrags_cons, Option.getD_some, List.append_assoc,
        Prod.mk.injEq, SendState.mk.injEq, and_true, true_and]
      omega

theorem emitSample_not_last (ts : Nat) (total : Nat) :
    ∀ (ps : List (List Nat)) (i seq : Nat) (r : DatagramRec),
      r ∈ emitSample ts false total ps i seq → r.is_last = false := by
  intro ps
  induction ps with
  | nil => intro i seq r hr; simp [emitSample] at hr
  | cons p rest ih =>
    intro i seq r hr
    simp only [emitSample, List.mem_cons] at hr
    rcases hr with rfl | hr
    · simp
    · exact ih (i + 1) (seq + 1) r hr

theorem emitSample_split (ts : Nat) (total : Nat) :
    ∀ (ps : List (List Nat)) (i seq : Nat), ps ≠ [] → i + ps.length = total →
      ∃ pre lastRec, emitSample ts true total ps i seq = pre ++ [lastRec] ∧
        lastRec.is_last = true ∧ ∀ r ∈ pre, r.is_last = false := by
  intro ps
  induction ps with
  | nil => intro i seq hne; cases hne rfl
  | cons p rest ih =>
    intro i seq hne hlen
    cases rest with
    | nil =>
      have hi : (i == total - 1) = true := by
        rw [beq_iff_eq]
        simp only [List.length_cons, List.length_nil] at hlen
        omega
      refine ⟨[], { bytes := mkDatagram ts seq (true && (i == total - 1)) p
                    seq := seq, is_last := true && (i == total - 1)
                    payload := p, ok := true }, by simp [emitSample], ?_, by simp⟩
      simp [hi]
    | cons q rest2 =>
      simp only [List.length_cons] at hlen
      obtain ⟨pre, lastRec, he, hl, hprev⟩ :=
        ih (i + 1) (seq + 1) (by simp) (by simp only [List.length_cons]; omega)
      refine ⟨{ bytes := mkDatagram ts seq (true && (i == total - 1)) p
                seq := seq, is_last := true && (i == total - 1)
                payload := p, ok := true } :: pre, lastRec, ?_, hl, ?_⟩
      · rw [emitSample, he]
        simp [List.cons_append]
      · intro r hr
        rcases List.mem_cons.mp hr with rfl | hr
        · have hi : (i == total - 1) = false := by
            rw [beq_eq_false_iff_ne]
            omega
          simp [hi]
        · exact hprev r hr

theorem emitAll_split (payloader : List Nat → Option (List (List Nat))) (ts : Nat) :
    ∀ (samples : List (List Nat)) (seq : Nat), samples ≠ [] →
      (∀ s ∈ samples, ∃ ps, payloader s = some ps ∧ ps ≠ []) →
      ∃ pre lastRec, emitAll payloader ts samples seq = pre ++ [lastRec] ∧
        lastRec.is_last = true ∧ ∀ r ∈ pre, r.is_last = false := by
  intro samples
  induction samples with
  | nil => intro seq hne; cases hne rfl
  | cons s rest ih =>
    intro seq hne hok
    obtain ⟨ps, hps, hpne⟩ := hok s (List.mem_cons_self s rest)
    cases rest with
    | nil =>
      obtain ⟨pre, lastRec, he, hl, hprev⟩ :=
        emitSample_split ts ps.length ps 0 seq hpne (by omega)
      refine ⟨pre, lastRec, ?_, hl, hprev⟩
      simp only [emitAll, hps, List.isEmpty_nil, he, List.append_nil]
    | cons s2 rest2 =>
      obtain ⟨pre, lastRec, he, hl, hprev⟩ := ih (seq + ps.length) (by simp)
        (fun x hx => hok x (List.mem_cons_of_mem s hx))
      refine ⟨emitSample ts false ps.length ps 0 seq ++ pre, lastRec, ?_, hl, ?_⟩
      · rw [emitAll, hps]
        dsimp only
        rw [he]
        simp [List.isEmpty_cons]
      · intro r hr
        rcases List.mem_append.mp hr with hr | hr
        · exact emitSample_not_last ts ps.length ps 0 seq r hr
        · exact hprev r hr

/-- C8: every datagram emitted by `send_samples` for one decode unit is
the 7-byte header `timestamp(be32) ++ sequence(be16) ++ is_last(u8)`
followed by one payloader fragment of the unit's NALs; under the
payloader's MTU contract each payload is at most RTP_OUTBOUND_MTU − 12
bytes; the successfully sent datagrams of the unit carry the consecutive
sequence numbers 0, 1, 2, … (the counter restarts at 0 for each unit);
and — with every send succeeding and every NAL payloading to at least
one fragment — the is_last byte is 1 exactly on the final payload of the
final NAL. -/
theorem claim_C8_datagram_wire_format
    (payloader : List Nat → Option (List (List Nat))) (oracle : Nat → Bool)
    (ts : Nat) (samples : List (List Nat)) :
    (∀ r ∈ (send_samples payloader oracle ts samples true false).1.datagrams,
      r.bytes = u32be (ts % 2 ^ 32) ++ u16be (r.seq % 2 ^ 16) ++
        [if r.is_last then 1 else 0] ++ r.payload ∧
      ∃ s ∈ samples, ∃ ps, payloader s = some ps ∧ r.payload ∈ ps) ∧
    ((∀ s ps, payloader s = some ps → ∀ p ∈ ps, p.length ≤ maxPayloadSize) →
      ∀ r ∈ (send_samples payloader oracle ts samples true false).1.datagrams,
        r.bytes.length = 7 + r.payload.length ∧
        r.bytes.length ≤ 7 + maxPayloadSize) ∧
    (((send_samples payloader oracle ts samples true false).1.datagrams.filter
        (fun r => r.ok)).map (fun r => r.seq) =
      List.range (send_samples payloader oracle ts samples true false).1.sent) ∧
    ((∀ k, oracle k = true) → samples ≠ [] →
      (∀ s ∈ samples, ∃ ps, payloader s = some ps ∧ ps ≠ []) →
      ∃ pre lastRec,
        (send_samples payloader oracle ts samples true false).1.datagrams =
          pre ++ [lastRec] ∧
        lastRec.is_last = true ∧ ∀ r ∈ pre, r.is_last = false) := by
  obtain ⟨hdat, hsent⟩ := send_samples_fst_fields payloader oracle ts samples false
  have hmem : ∀ r ∈ (send_samples payloader oracle ts samples true false).1.datagrams,
      r.bytes = mkDatagram ts r.seq r.is_last r.payload ∧
      ∃ s ∈ samples, ∃ ps, payloader s = some ps ∧ r.payload ∈ ps := by
    intro r hr
    rw [hdat] at hr
    rcases sendSamplesLoop_mem payloader oracle ts samples (initState false) r hr with hm | h
    · simp [initState] at hm
    · exact h
  refine ⟨?_, ?_, ?_, ?_⟩
  · intro r hr
    obtain ⟨hb, hfrag⟩ := hmem r hr
    exact ⟨by rw [hb]; rfl, hfrag⟩
  · intro hsize r hr
    obtain ⟨hb, s, hs, ps, hps, hfrag⟩ := hmem r hr
    have hlen : r.bytes.length = 7 + r.payload.length := by
      rw [hb, mkDatagram_length]
    refine ⟨hlen, ?_⟩
    rw [hlen]
    have := hsize s ps hps r.payload hfrag
    omega
  · rw [hdat, hsent]
    exact sendSamplesLoop_seq payloader oracle ts samples (initState false)
      (by simp [okSeqs, initState])
  · intro hall hne hok
    have hloop := sendSamplesLoop_all_success payloader oracle ts hall samples
      (initState false) rfl
    have hss : (send_samples payloader oracle ts samples true false).1.datagrams =
        emitAll payloader ts samples 0 := by
      rw [hdat, hloop]
      simp [initState]
    rw [hss]
    exact emitAll_split payloader ts samples 0 hne hok

theorem claim_C8_witness :
    (((send_samples payloaderC8 oracleAllOk 5 [[0], [1]] true false).1.datagrams.filter
        (fun r => r.ok)).map (fun r => r.seq) =
      List.range (send_samples payloaderC8 oracleAllOk 5 [[0], [1]] true false).1.sent) ∧
    (∃ pre lastRec,
      (send_samples payloaderC8 oracleAllOk 5 [[0], [1]] true false).1.datagrams =
        pre ++ [lastRec] ∧ lastRec.is_last = true ∧ ∀ r ∈ pre, r.is_last = false) ∧
    (∀ r ∈ (send_samples payloaderC8 oracleAllOk 5 [[0], [1]] true false).1.datagrams,
      r.bytes.length ≤ 7 + maxPayloadSize) := by
  have h := claim_C8_datagram_wire_format payloaderC8 oracleAllOk 5 [[0], [1]]
  refine ⟨h.2.2.1, ?_, ?_⟩
  · exact h.2.2.2 (fun k => rfl) (by simp)
      (fun s hs => ⟨[[9], [8]], rfl, by simp⟩)
  · intro r hr
    refine (h.2.1 ?_ r hr).2
    intro s ps hps p hp
    simp only [payloaderC8, Option.some.injEq] at hps
    subst hps
    simp only [List.mem_cons, List.not_mem_nil, or_false] at hp
    rcases hp with rfl | rfl <;> decide

end WTVideo
